import Mathlib

/-!
Verification of the `mealie-api.py` command-line client.

The development shallowly embeds the request-construction and
response-rendering pipeline of `src/mealie-api.py`:

* `PyVal` models the Python values produced by `json.loads`
  (the JSON argument payload);
* `jsonLoads` models the standard-library `json.loads` on strings
  (strict JSON: objects, arrays, strings with escapes, numbers,
  `true`/`false`/`null`; the CPython extensions `NaN`/`Infinity` and
  lone-surrogate round-tripping are not modelled — lone surrogates
  decode to U+FFFD here, and floats are modelled as exact rationals);
* `parse_json_payload`, `prepare_file_upload`, `determine_method`,
  `make_request` and `format_response` are translated line by line
  from the source; `sys.exit(1)` paths are modelled as `Except.error`,
  filesystem access (`os.path.isfile`) and the user's home directory
  (`os.path.expanduser`) are explicit parameters, and the HTTP
  transport is a parameter returning either a response or a
  transport-level failure (`requests.exceptions.RequestException`).
-/

/-- A backslash character (used pervasively by the escape-repair pass). -/
def bsChar : Char := Char.ofNat 92

/-- The backtick character. -/
def btChar : Char := Char.ofNat 96

/-- Left curly brace. -/
def lbChar : Char := Char.ofNat 123

/-- Right curly brace. -/
def rbChar : Char := Char.ofNat 125

/-- The single-quote character. -/
def sqChar : Char := Char.ofNat 39

/-- Python values as produced by `json.loads`: `None`, `bool`, `int`,
`float` (modelled as an exact rational), `str`, `list` and `dict`
(an insertion-ordered association list, as Python dicts are).
`PyVal.none` doubles as Python's `None`, exactly as in the source,
where an absent payload and a parsed JSON `null` are the same object. -/
inductive PyVal where
  | none : PyVal
  | bool (b : Bool) : PyVal
  | int (n : Int) : PyVal
  | float (q : Rat) : PyVal
  | str (s : String) : PyVal
  | list (xs : List PyVal) : PyVal
  | dict (kvs : List (String × PyVal)) : PyVal

/-- Python's `x is None` test. -/
def PyVal.isNone : PyVal → Bool
  | .none => true
  | _ => false

/-- Whether the value is a dict (a JSON mapping). -/
def PyVal.isDict : PyVal → Bool
  | .dict _ => true
  | _ => false

/-- The underlying string of a string value (the classifier only reads
this under an `isinstance(value, str)` guard). -/
def PyVal.asStr : PyVal → String
  | .str s => s
  | _ => ""

/-- JSON whitespace skipped by `json.loads` (space, tab, newline, return). -/
def jsonWsChars : List Char := [' ', Char.ofNat 9, Char.ofNat 10, Char.ofNat 13]

/-- Drop leading JSON whitespace. -/
def skipWs (l : List Char) : List Char := l.dropWhile (fun c => jsonWsChars.contains c)

/-- Value of a hexadecimal digit, if any. -/
def hexDigit (c : Char) : Option Nat :=
  if '0' ≤ c ∧ c ≤ '9' then some (c.toNat - 48)
  else if 'a' ≤ c ∧ c ≤ 'f' then some (c.toNat - 87)
  else if 'A' ≤ c ∧ c ≤ 'F' then some (c.toNat - 55)
  else none

/-- Parse the remainder of a JSON string literal (the opening quote has
been consumed), returning the decoded characters and the rest of the
input.  Mirrors CPython's strict `py_scanstring`: unescaped control
characters are rejected, the eight short escapes and `\uXXXX` are
decoded, and surrogate pairs are combined.  Lone surrogates, which
CPython keeps verbatim, become U+FFFD here since Lean characters are
unicode scalar values. -/
def parseStringAux : Nat → List Char → Option (List Char × List Char)
  | 0, _ => Option.none
  | _ + 1, [] => Option.none
  | fuel + 1, c :: rest =>
    if c = '"' then some ([], rest)
    else if c = bsChar then
      match rest with
      | [] => Option.none
      | e :: r2 =>
        if e = '"' then (parseStringAux fuel r2).map (fun pr => ('"' :: pr.1, pr.2))
        else if e = bsChar then (parseStringAux fuel r2).map (fun pr => (bsChar :: pr.1, pr.2))
        else if e = '/' then (parseStringAux fuel r2).map (fun pr => ('/' :: pr.1, pr.2))
        else if e = 'b' then (parseStringAux fuel r2).map (fun pr => (Char.ofNat 8 :: pr.1, pr.2))
        else if e = 'f' then (parseStringAux fuel r2).map (fun pr => (Char.ofNat 12 :: pr.1, pr.2))
        else if e = 'n' then (parseStringAux fuel r2).map (fun pr => (Char.ofNat 10 :: pr.1, pr.2))
        else if e = 'r' then (parseStringAux fuel r2).map (fun pr => (Char.ofNat 13 :: pr.1, pr.2))
        else if e = 't' then (parseStringAux fuel r2).map (fun pr => (Char.ofNat 9 :: pr.1, pr.2))
        else if e = 'u' then
          match r2 with
          | h1 :: h2 :: h3 :: h4 :: r3 =>
            match hexDigit h1, hexDigit h2, hexDigit h3, hexDigit h4 with
            | some a, some b, some c2, some d =>
              let code := ((a * 16 + b) * 16 + c2) * 16 + d
              if 0xD800 ≤ code ∧ code ≤ 0xDBFF then
                match r3 with
                | b1 :: u1 :: g1 :: g2 :: g3 :: g4 :: r4 =>
                  if b1 = bsChar ∧ u1 = 'u' then
                    match hexDigit g1, hexDigit g2, hexDigit g3, hexDigit g4 with
                    | some a2, some b2, some c3, some d2 =>
                      let code2 := ((a2 * 16 + b2) * 16 + c3) * 16 + d2
                      if 0xDC00 ≤ code2 ∧ code2 ≤ 0xDFFF then
                        (parseStringAux fuel r4).map
                          (fun pr =>
                            (Char.ofNat (0x10000 + (code - 0xD800) * 0x400 + (code2 - 0xDC00)) :: pr.1, pr.2))
                      else (parseStringAux fuel r3).map (fun pr => (Char.ofNat 0xFFFD :: pr.1, pr.2))
                    | _, _, _, _ => (parseStringAux fuel r3).map (fun pr => (Char.ofNat 0xFFFD :: pr.1, pr.2))
                  else (parseStringAux fuel r3).map (fun pr => (Char.ofNat 0xFFFD :: pr.1, pr.2))
                | _ => (parseStringAux fuel r3).map (fun pr => (Char.ofNat 0xFFFD :: pr.1, pr.2))
              else if 0xDC00 ≤ code ∧ code ≤ 0xDFFF then
                (parseStringAux fuel r3).map (fun pr => (Char.ofNat 0xFFFD :: pr.1, pr.2))
              else (parseStringAux fuel r3).map (fun pr => (Char.ofNat code :: pr.1, pr.2))
            | _, _, _, _ => Option.none
          | _ => Option.none
        else Option.none
    else if c.toNat < 32 then Option.none
    else (parseStringAux fuel rest).map (fun pr => (c :: pr.1, pr.2))

/-- Greedily consume decimal digits, returning their value, how many
were consumed, and the rest. -/
def digitsAux (acc cnt : Nat) : List Char → Nat × Nat × List Char
  | c :: rest =>
    if '0' ≤ c ∧ c ≤ '9' then digitsAux (acc * 10 + (c.toNat - 48)) (cnt + 1) rest
    else (acc, cnt, c :: rest)
  | [] => (acc, cnt, [])

/-- Consume one or more decimal digits, failing when none are present. -/
def digitsOpt (l : List Char) : Option (Nat × Nat × List Char) :=
  match l with
  | c :: _ => if '0' ≤ c ∧ c ≤ '9' then some (digitsAux 0 0 l) else Option.none
  | [] => Option.none

/-- Multiply a rational by a (possibly negative) power of ten. -/
def ratTimesPow10 (q : Rat) (e : Int) : Rat :=
  if 0 ≤ e then q * (10 : Rat) ^ e.toNat else q / (10 : Rat) ^ (-e).toNat

/-- Finish a JSON number after its integer part `i` (sign `neg`),
handling the optional fraction and exponent exactly as CPython's
`NUMBER_RE` does: a `.` or `e` not followed by a digit is left
unconsumed (and then trips the trailing-data check). -/
def finishNumber (neg : Bool) (i : Nat) (rest : List Char) : PyVal × List Char :=
  let fr : Option (Nat × Nat × List Char) := match rest with
    | '.' :: r => digitsOpt r
    | _ => Option.none
  let f := match fr with | some t => t.1 | Option.none => 0
  let k := match fr with | some t => t.2.1 | Option.none => 0
  let rest2 := match fr with | some t => t.2.2 | Option.none => rest
  let ex : Option (Int × List Char) := match rest2 with
    | c :: r =>
      if c = 'e' ∨ c = 'E' then
        match r with
        | '+' :: r2 => (digitsOpt r2).map (fun t => ((t.1 : Int), t.2.2))
        | '-' :: r2 => (digitsOpt r2).map (fun t => (-(t.1 : Int), t.2.2))
        | _ => (digitsOpt r).map (fun t => ((t.1 : Int), t.2.2))
      else Option.none
    | [] => Option.none
  let e := match ex with | some t => t.1 | Option.none => 0
  let rest3 := match ex with | some t => t.2 | Option.none => rest2
  if fr.isSome ∨ ex.isSome then
    let base : Rat := ((i * 10 ^ k + f : Nat) : Rat) / ((10 ^ k : Nat) : Rat)
    let mag := ratTimesPow10 base e
    (.float (if neg then -mag else mag), rest3)
  else
    (.int (if neg then -(i : Int) else (i : Int)), rest3)

/-- Parse a JSON number (`-? (0 | [1-9][0-9]*) frac? exp?`). -/
def parseNumber (l : List Char) : Option (PyVal × List Char) :=
  let sgn := match l with | '-' :: r => (true, r) | _ => (false, l)
  let neg := sgn.1
  match sgn.2 with
  | [] => Option.none
  | c :: r =>
    if c = '0' then some (finishNumber neg 0 r)
    else if '1' ≤ c ∧ c ≤ '9' then
      let t := digitsAux 0 0 (c :: r)
      some (finishNumber neg t.1 t.2.2)
    else Option.none

/-- Replace the value of key `k` in place if present (keeping the
original insertion position), else append — Python dict assignment. -/
def updateAssoc (acc : List (String × PyVal)) (k : String) (v : PyVal) :
    List (String × PyVal) :=
  if acc.any (fun kv => kv.1 == k) then
    acc.map (fun kv => if kv.1 == k then (k, v) else kv)
  else acc ++ [(k, v)]

mutual

/-- Parse one JSON value at the head of the input (no leading
whitespace), CPython scanner dispatch order. -/
def parseValue : Nat → List Char → Option (PyVal × List Char)
  | 0, _ => Option.none
  | fuel + 1, l =>
    match l with
    | [] => Option.none
    | c :: rest =>
      if c = '"' then
        match parseStringAux (fuel + 1) rest with
        | some (cs, r) => some (.str (String.mk cs), r)
        | Option.none => Option.none
      else if c = lbChar then parseObjBody fuel (skipWs rest) true []
      else if c = '[' then parseArrBody fuel (skipWs rest) true []
      else if c = 't' then
        match rest with
        | 'r' :: 'u' :: 'e' :: r => some (.bool true, r)
        | _ => Option.none
      else if c = 'f' then
        match rest with
        | 'a' :: 'l' :: 's' :: 'e' :: r => some (.bool false, r)
        | _ => Option.none
      else if c = 'n' then
        match rest with
        | 'u' :: 'l' :: 'l' :: r => some (.none, r)
        | _ => Option.none
      else if c = '-' ∨ ('0' ≤ c ∧ c ≤ '9') then parseNumber l
      else Option.none

/-- Parse the members of a JSON object after its `{` (whitespace
already skipped); `first` is true before any member has been read,
which is the only point at which `}` may close an empty object. -/
def parseObjBody : Nat → List Char → Bool → List (String × PyVal) →
    Option (PyVal × List Char)
  | 0, _, _, _ => Option.none
  | fuel + 1, l, first, acc =>
    match l with
    | [] => Option.none
    | c :: rest =>
      if first ∧ c = rbChar then some (.dict acc, rest)
      else if c = '"' then
        match parseStringAux fuel rest with
        | some (kcs, r1) =>
          match skipWs r1 with
          | ':' :: r2 =>
            match parseValue fuel (skipWs r2) with
            | some (v, r3) =>
              let acc2 := updateAssoc acc (String.mk kcs) v
              match skipWs r3 with
              | ',' :: r4 => parseObjBody fuel (skipWs r4) false acc2
              | d :: r4 => if d = rbChar then some (.dict acc2, r4) else Option.none
              | [] => Option.none
            | Option.none => Option.none
          | _ => Option.none
        | Option.none => Option.none
      else Option.none

/-- Parse the elements of a JSON array after its `[` (whitespace
already skipped); `first` as in `parseObjBody`. -/
def parseArrBody : Nat → List Char → Bool → List PyVal →
    Option (PyVal × List Char)
  | 0, _, _, _ => Option.none
  | fuel + 1, l, first, acc =>
    match l with
    | [] => Option.none
    | c :: _ =>
      if first ∧ c = ']' then some (.list acc.reverse, l.tail)
      else
        match parseValue fuel l with
        | some (v, r1) =>
          match skipWs r1 with
          | ',' :: r2 => parseArrBody fuel (skipWs r2) false (v :: acc)
          | d :: r2 => if d = ']' then some (.list (v :: acc).reverse, r2) else Option.none
          | [] => Option.none
        | Option.none => Option.none

end

/-- Model of Python's `json.loads`: skip leading whitespace, parse one
value, require only whitespace to remain (CPython's `Extra data`
check).  Returns `none` where CPython raises `json.JSONDecodeError`. -/
def jsonLoads (s : String) : Option PyVal :=
  match parseValue (4 * (s.data.length + 1)) (skipWs s.data) with
  | some (v, rest) =>
    match skipWs rest with
    | [] => some v
    | _ => Option.none
  | Option.none => Option.none

/-- Python's `str.lower()` (ASCII case mapping; the claims only
exercise ASCII header and key names). -/
def pyLower (s : String) : String := String.mk (s.data.map Char.toLower)

/-- Python's `str.upper()` (ASCII case mapping). -/
def pyUpper (s : String) : String := String.mk (s.data.map Char.toUpper)

/-- Whether `needle` is a prefix of the character list. -/
def isPrefixCh : List Char → List Char → Bool
  | [], _ => true
  | _ :: _, [] => false
  | a :: as, b :: bs => (a == b) && isPrefixCh as bs

/-- Python's `s.startswith(pre)`. -/
def pyStartsWith (s pre : String) : Bool := isPrefixCh pre.data s.data

/-- Whether `needle` occurs as a contiguous sublist. -/
def listInfix (needle : List Char) : List Char → Bool
  | [] => isPrefixCh needle []
  | c :: t => isPrefixCh needle (c :: t) || listInfix needle t

/-- Python's `needle in hay` substring test. -/
def containsSubstr (hay needle : String) : Bool := listInfix needle.data hay.data

/-- Python's `str.split(sep)` for a one-character separator (always
returns at least one, possibly empty, piece). -/
def splitChar (sep : Char) : List Char → List (List Char)
  | [] => [[]]
  | c :: t =>
    match splitChar sep t with
    | [] => [[]]
    | h :: r => if c = sep then [] :: h :: r else (c :: h) :: r

/-- Python whitespace as stripped by `str.strip()` (the ASCII whitespace
characters; exotic unicode whitespace is not modelled). -/
def pySpaceChars : List Char :=
  [' ', Char.ofNat 9, Char.ofNat 10, Char.ofNat 13, Char.ofNat 11, Char.ofNat 12]

/-- Python's `str.strip()`. -/
def pyStrip (s : String) : String :=
  String.mk
    (((s.data.dropWhile (fun c => pySpaceChars.contains c)).reverse.dropWhile
        (fun c => pySpaceChars.contains c)).reverse)

/-- Python's `str.replace` for the two-character pattern backslash-`c`
replaced by `c`: a single left-to-right pass over non-overlapping
occurrences, exactly as CPython performs it. -/
def replEsc (c : Char) : List Char → List Char
  | x :: y :: rest =>
    if x = bsChar ∧ y = c then c :: replEsc c rest
    else x :: replEsc c (y :: rest)
  | l => l

/-- The escaped characters repaired by `parse_json_payload`, in the
exact order the source applies the sixteen `str.replace` calls:
space, parentheses, ampersand, brackets, braces, semicolon, redirects,
pipe, dollar, backtick, single quote, double quote. -/
def escChars : List Char :=
  [' ', '(', ')', '&', '[', ']', lbChar, rbChar, ';', '>', '<', '|', '$',
   btChar, sqChar, '"']

/-- The escape-repair pass on a character list: the sixteen sequential
replacements, applied left to right in source order. -/
def fixList (l : List Char) : List Char :=
  escChars.foldl (fun acc c => replEsc c acc) l

/-- The escape-repair pass of `parse_json_payload` (the `fixed_payload`
chain of `str.replace` calls, lines 121–136 of the source). -/
def fixEscapes (s : String) : String := String.mk (fixList s.data)

/-- The data carried by the fatal `MalformedPayload` report: the
original payload string and the escape-repaired attempt (both are
printed before `sys.exit(1)`; the parser diagnostic text of the
underlying `json.JSONDecodeError` is not modelled). -/
structure MalformedPayload where
  original : String
  attempted : String

/-- Model of `parse_json_payload` from the source: empty or whitespace-only
input returns `None` (which is also the model of "absent"); otherwise
try `json.loads` directly, then on the escape-repaired string, and
fail fatally (`sys.exit(1)`, modelled as `Except.error`) carrying both
strings if the second decode also fails. -/
def parse_json_payload (payload : String) : Except MalformedPayload PyVal :=
  if payload = "" ∨ pyStrip payload = "" then .ok PyVal.none
  else
    match jsonLoads payload with
    | some v => .ok v
    | Option.none =>
      match jsonLoads (fixEscapes payload) with
      | some v => .ok v
      | Option.none => .error ⟨payload, fixEscapes payload⟩

/-- The fixed file-indicating key names of `prepare_file_upload`. -/
def fileKeyNames : List String := ["archive", "file", "upload", "attachment"]

/-- Python's `value.split('/')[-1]` — the last `/`-separated segment. -/
def lastSegment (s : String) : String :=
  String.mk ((splitChar '/' s.data).getLastD [])

/-- The file-reference test of `prepare_file_upload` (and repeated in
`print_verbose_request`): the value is a string and the key is a
file-indicating name, or the value starts with `~/` or `/`, or its
last path segment contains a dot. -/
def fileCond (k : String) (v : PyVal) : Bool :=
  match v with
  | .str s =>
    fileKeyNames.contains (pyLower k) || pyStartsWith s "~/" || pyStartsWith s "/" ||
      (lastSegment s).data.contains '.'
  | _ => false

/-- Model of `os.path.expanduser` for the invoking user, whose home directory is
the explicit `home` parameter (assumed without a trailing slash, as
usual); the `~otheruser` form, which CPython resolves through the
password database, is left unexpanded here. -/
def expanduser (home : String) (p : String) : String :=
  if p = "~" then home
  else if pyStartsWith p "~/" then home ++ String.mk (p.data.drop 1)
  else p

/-- Model of `prepare_file_upload` from the source, parameterised by the
filesystem (`isFile`, modelling `os.path.isfile`) and the home
directory.  On success it returns the `files` mapping (key to the
resolved path whose binary stream was opened) and the `data` mapping of
plain fields; on a missing file it fails (`sys.exit(1)`) carrying the
resolved path that was reported, together with the paths already opened
at that point (which the source never closes on this path). -/
def prepare_file_upload (isFile : String → Bool) (home : String) :
    List (String × PyVal) →
    Except (String × List String) (List (String × String) × List (String × PyVal))
  | [] => .ok ([], [])
  | (k, v) :: rest =>
    if fileCond k v then
      let p := expanduser home v.asStr
      if isFile p then
        match prepare_file_upload isFile home rest with
        | .ok (fs, ds) => .ok ((k, p) :: fs, ds)
        | .error (mp, op) => .error (mp, p :: op)
      else .error (p, [])
    else
      match prepare_file_upload isFile home rest with
      | .ok (fs, ds) => .ok (fs, (k, v) :: ds)
      | .error e => .error e

/-- Model of `determine_method` from the source: an explicit (truthy) method
string wins, upper-cased; else `POST` when a payload is present
(`payload is not None`), else `GET`. -/
def determine_method (payload : PyVal) (method : Option String) : String :=
  if (method.getD "") ≠ "" then pyUpper (method.getD "")
  else if ¬payload.isNone then "POST"
  else "GET"

/-- The body attached to the single HTTP request: none, a JSON body
(`json=payload`), or multipart `files`/`data` mappings. -/
inductive SentBody where
  | none : SentBody
  | json (v : PyVal) : SentBody
  | multipart (files : List (String × String)) (data : List (String × PyVal)) : SentBody

/-- One HTTP request as handed to `requests.request`. -/
structure SentReq where
  url : String
  method : String
  headers : List (String × String)
  body : SentBody

/-- A transport-level response (`requests.Response`): status code,
reason phrase, final URL, elapsed time (modelled at whole-millisecond
granularity), response headers, and the body text. -/
structure HttpResp where
  status : Nat
  reason : String
  url : String
  elapsedMs : Nat
  headers : List (String × String)
  body : String

/-- Case-insensitive header lookup (`requests` uses a
case-insensitive dict for response headers). -/
def headersGet (hs : List (String × String)) (k : String) : Option String :=
  (hs.find? (fun kv => pyLower kv.1 == pyLower k)).map (fun kv => kv.2)

/-- The fatal outcomes of `make_request`: a missing multipart file
(reported by `prepare_file_upload` before any request is sent), a
transport failure (`requests.exceptions.RequestException`), or the
uncaught `AttributeError` a non-dict payload would raise in
`payload.items()`. -/
inductive Fatal where
  | fileNotFound (path : String) : Fatal
  | transportErr (msg : String) : Fatal
  | typeErr : Fatal

/-- The observable result of `make_request`: the requests actually
handed to the transport, the file paths whose handles were opened for
multipart upload, the paths whose handles were closed, and the
outcome (a response, or a fatal `sys.exit(1)` path). -/
structure MakeResult where
  sent : List SentReq
  opened : List String
  closed : List String
  outcome : Except Fatal HttpResp

/-- Model of `make_request` from the source.  `transport` models one call to
`requests.request` (returning the response or raising a
`RequestException`).  For `POST`/`PUT`/`PATCH` with a present payload:
in multipart mode the payload is classified by `prepare_file_upload`
(failing fast, before any request, on a missing file), the
`Content-Type` header is removed, and the `try/finally` closes every
opened file whether the transport returns or raises; otherwise the
payload is sent as a JSON body.  Any other method/payload combination
sends no body. -/
def make_request (transport : SentReq → Except String HttpResp)
    (isFile : String → Bool) (home : String)
    (url method : String) (headers : List (String × String))
    (payload : PyVal) (multipart : Bool) : MakeResult :=
  if (["POST", "PUT", "PATCH"].contains method) ∧ ¬payload.isNone then
    if multipart then
      match payload with
      | .dict items =>
        match prepare_file_upload isFile home items with
        | .error (p, opened) => ⟨[], opened, [], .error (.fileNotFound p)⟩
        | .ok (files, data) =>
          let mh := headers.filter (fun kv => pyLower kv.1 ≠ "content-type")
          let req : SentReq := ⟨url, method, mh, .multipart files data⟩
          let opened := files.map (fun kv => kv.2)
          match transport req with
          | .ok resp => ⟨[req], opened, opened, .ok resp⟩
          | .error e => ⟨[req], opened, opened, .error (.transportErr e)⟩
      | _ => ⟨[], [], [], .error .typeErr⟩
    else
      let req : SentReq := ⟨url, method, headers, .json payload⟩
      match transport req with
      | .ok resp => ⟨[req], [], [], .ok resp⟩
      | .error e => ⟨[req], [], [], .error (.transportErr e)⟩
  else
    let req : SentReq := ⟨url, method, headers, .none⟩
    match transport req with
    | .ok resp => ⟨[req], [], [], .ok resp⟩
    | .error e => ⟨[req], [], [], .error (.transportErr e)⟩

/-- The process exit code after `make_request`: 1 on any fatal path
(`sys.exit(1)` inside `make_request`), else derived from the final
status code by `main` (`0 if 200 <= status < 300 else 1`). -/
def request_exit (r : Except Fatal HttpResp) : Nat :=
  match r with
  | .error _ => 1
  | .ok resp => if 200 ≤ resp.status ∧ resp.status < 300 then 0 else 1

/-- ANSI color constants from the source's `Colors` class. -/
def colorRed : String := "\x1b[0;31m"

/-- Green. -/
def colorGreen : String := "\x1b[0;32m"

/-- Yellow (bold). -/
def colorYellow : String := "\x1b[1;33m"

/-- Blue. -/
def colorBlue : String := "\x1b[0;34m"

/-- Cyan. -/
def colorCyan : String := "\x1b[0;36m"

/-- No color (reset). -/
def colorNC : String := "\x1b[0m"

/-- Model of `print_color` from the source: the colored message plus the
newline `print` appends. -/
def print_color (color msg : String) : String := color ++ msg ++ colorNC ++ "\n"

/-- The status banner printed by `format_response` in non-raw mode:
Success (2xx), Client Error (4xx), Server Error (5xx), or Unexpected. -/
def statusBanner (status : Nat) : String :=
  if 200 ≤ status ∧ status < 300 then
    print_color colorGreen ("✓ Success (HTTP " ++ toString status ++ ")")
  else if 400 ≤ status ∧ status < 500 then
    print_color colorRed ("✗ Client Error (HTTP " ++ toString status ++ ")")
  else if 500 ≤ status ∧ status < 600 then
    print_color colorRed ("✗ Server Error (HTTP " ++ toString status ++ ")")
  else
    print_color colorYellow ("! Unexpected Status (HTTP " ++ toString status ++ ")")

/-- Two-digit rendering of a number below 100. -/
def pad2 (n : Nat) : String := if n < 10 then "0" ++ toString n else toString n

/-- The human-readable size string of the debug reporter
(`f"{x/1024:.2f} KB"` above 1024 bytes, else `f"{x} bytes"`; the
two-decimal rounding is modelled half-up where CPython's float
formatting rounds half-even — the claims never evaluate this branch at
a tie). -/
def sizeStr (n : Nat) : String :=
  if 1024 < n then
    toString ((n * 100 + 512) / 1024 / 100) ++ "." ++ pad2 (((n * 100 + 512) / 1024) % 100) ++ " KB"
  else toString n ++ " bytes"

/-- Model of `print_verbose_response` from the source: the debug dump printed
before any rendering when verbose mode is on (elapsed time modelled at
whole milliseconds, so the `%.2f` rendering is `ms.00`; the response
size counts the UTF-8 bytes of the body, as `len(response.content)`
does). -/
def print_verbose_response (resp : HttpResp) : String :=
  print_color colorBlue "=== HTTP RESPONSE DEBUG INFO ===" ++
  "Status Code: " ++ toString resp.status ++ "\n" ++
  "Reason: " ++ resp.reason ++ "\n" ++
  "URL: " ++ resp.url ++ "\n" ++
  "Response Time: " ++ toString resp.elapsedMs ++ ".00ms\n" ++
  "\n" ++
  print_color colorYellow "Response Headers:" ++
  String.join (resp.headers.map (fun kv => "  " ++ kv.1 ++ ": " ++ kv.2 ++ "\n")) ++
  "\n" ++
  "Response Size: " ++ sizeStr resp.body.utf8ByteSize ++ "\n" ++
  "\n"

/-- Model of `format_response` from the source, as the text it prints.
`html_fmt` stands for `format_html_response` (whose behavior is that of
the external BeautifulSoup library) and `json_dumps` for
`json.dumps(·, indent=2, ensure_ascii=False)`; both are parameters, so
every theorem below holds for arbitrary renderings of those externals.
Verbose mode first dumps the response debug info; raw mode then prints
exactly the body (printed with no trailing newline) and returns;
otherwise the status banner, the empty-body notices, and the
content-type negotiation follow the source line by line. -/
def format_response (html_fmt : String → String) (json_dumps : PyVal → String)
    (resp : HttpResp) (raw_output verbose : Bool) : String :=
  (if verbose then print_verbose_response resp else "") ++
  (if raw_output then resp.body
   else
    statusBanner resp.status ++
    (let content := pyStrip resp.body
     if content = "" then
       if 200 ≤ resp.status ∧ resp.status < 300 then
         print_color colorYellow "Success but no response body received"
       else
         print_color colorYellow "No response body received"
     else
       "\nResponse:\n" ++
       (let contentType := pyLower ((headersGet resp.headers "content-type").getD "")
        if containsSubstr contentType "application/json" then
          match jsonLoads resp.body with
          | some j => json_dumps j ++ "\n"
          | Option.none =>
            print_color colorYellow "Response claims to be JSON but is not valid JSON:" ++
            content ++ "\n"
        else if containsSubstr contentType "text/html" then
          print_color colorYellow "HTML Response (parsed):" ++ html_fmt content ++ "\n"
        else
          (if contentType ≠ "" then print_color colorYellow ("Content-Type: " ++ contentType)
           else "") ++ content ++ "\n")))

/-- The tail of `main` once a response has been received: display the
response, then `sys.exit(0 if 200 <= status < 300 else 1)`.  Returns
the rendered text and the process exit code. -/
def render_and_exit (html_fmt : String → String) (json_dumps : PyVal → String)
    (resp : HttpResp) (raw_output verbose : Bool) : String × Nat :=
  (format_response html_fmt json_dumps resp raw_output verbose,
   if 200 ≤ resp.status ∧ resp.status < 300 then 0 else 1)

/-- The relation `Esc S o s`: the string `s` is the string `o` into which a
backslash has been introduced immediately before some occurrences of
characters drawn from `S` — the spec's notion of a payload "into which
only the literal escape sequences listed in §4.1 have been
introduced". -/
inductive Esc (S : List Char) : List Char → List Char → Prop
  | nil : Esc S [] []
  | keep (c : Char) {o s : List Char} : Esc S o s → Esc S (c :: o) (c :: s)
  | ins (c : Char) {o s : List Char} : c ∈ S → Esc S o s → Esc S (c :: o) (bsChar :: c :: s)

/-- No character of `cs` is immediately preceded by a backslash in the
list — i.e. the string contains none of the corresponding two-character
escape sequences. -/
def cleanFor (cs : List Char) : List Char → Bool
  | b :: c :: rest => (!(b == bsChar && cs.contains c)) && cleanFor cs (c :: rest)
  | _ => true

/-- A fixed sample response used by concrete instantiations. -/
def dummyResp : HttpResp := ⟨200, "OK", "http://host/api/x", 12, [], "ok"⟩

/-- A transport that always returns `dummyResp`. -/
def dummyTransport : SentReq → Except String HttpResp := fun _ => .ok dummyResp

/-- A sample 200 response with a body, used to exercise raw mode. -/
def respVerbose : HttpResp :=
  ⟨200, "OK", "http://host/api/y", 7, [("Content-Type", "text/plain")], "BODY"⟩

/-- A 404 response that declares JSON but whose body is not valid JSON. -/
def respBadJson : HttpResp :=
  ⟨404, "Not Found", "http://host/api/z", 3, [("Content-Type", "application/json")], "oops"⟩

/-- A 200 response that declares JSON and has an empty body. -/
def respEmptyJson : HttpResp :=
  ⟨200, "OK", "http://host/api/w", 3, [("Content-Type", "application/json")], ""⟩

/-- The characters of the valid JSON text whose string value contains a
legitimate backslash-quote escape. -/
def escOrig : List Char :=
  [lbChar, '"', 'a', '"', ':', '"', 'b', bsChar, '"', 'c', '"', rbChar]

/-- The list `escOrig` with one §4.1 escape introduced (a backslash before the
opening brace). -/
def escBroken : List Char := bsChar :: escOrig

/-- The characters of a clean valid JSON text with a space inside a
string value. -/
def escwOrig : List Char :=
  [lbChar, '"', 'n', '"', ':', '"', 'a', ' ', 'b', '"', rbChar]

/-- The list `escwOrig` with the space escaped, as a shell might emit it. -/
def escwEsc : List Char :=
  [lbChar, '"', 'n', '"', ':', '"', 'a', bsChar, ' ', 'b', '"', rbChar]

/-- A sample multipart payload with one file-reference field and one
plain field. -/
def sampleItems : List (String × PyVal) :=
  [("archive", PyVal.str "~/backup.zip"), ("name", PyVal.str "Test Recipe")]

/-- A sample multipart payload whose only file-reference field points
at a missing file. -/
def missingItems : List (String × PyVal) :=
  [("name", PyVal.str "x"), ("file", PyVal.str "/nope.txt")]

/-- C1: for every invocation that receives an HTTP response, the
process exit code is 0 if the response status code lies in [200,300)
and 1 otherwise, regardless of raw/verbose mode and regardless of the
response body's content or content-type (and of whatever the HTML and
JSON renderers produce). -/
theorem exit_code_follows_status (html_fmt : String → String)
    (json_dumps : PyVal → String) (resp : HttpResp) (raw verbose : Bool) :
    ((render_and_exit html_fmt json_dumps resp raw verbose).2 = 0 ↔
      200 ≤ resp.status ∧ resp.status < 300)
    ∧ ((render_and_exit html_fmt json_dumps resp raw verbose).2 = 1 ↔
      ¬(200 ≤ resp.status ∧ resp.status < 300)) := by
  unfold render_and_exit
  by_cases h : 200 ≤ resp.status ∧ resp.status < 300 <;> simp [h]

/-- C2: `parse_json_payload` returns `None` (absent) on empty or
whitespace-only input, and takes the fatal `MalformedPayload`
`sys.exit(1)` path — reporting the original and the escape-repaired
string — exactly when the input is non-empty/non-whitespace and both
the direct JSON decode and the decode after the ordered escape-repair
substitutions fail. -/
theorem payload_parse_trichotomy (s : String) :
    ((s = "" ∨ pyStrip s = "") → parse_json_payload s = .ok PyVal.none)
    ∧ (parse_json_payload s = .error ⟨s, fixEscapes s⟩ ↔
        ¬(s = "" ∨ pyStrip s = "") ∧ jsonLoads s = Option.none ∧
          jsonLoads (fixEscapes s) = Option.none)
    ∧ (∀ e, parse_json_payload s = .error e → e = ⟨s, fixEscapes s⟩) := by
  refine ⟨fun h => by simp [parse_json_payload, h], ?_, ?_⟩
  · by_cases h : s = "" ∨ pyStrip s = ""
    · simp [parse_json_payload, h]
    · cases h1 : jsonLoads s with
      | some v => simp [parse_json_payload, h, h1]
      | none =>
        cases h2 : jsonLoads (fixEscapes s) with
        | some v => simp [parse_json_payload, h, h1, h2]
        | none => simp [parse_json_payload, h, h1, h2]
  · intro e he
    by_cases h : s = "" ∨ pyStrip s = ""
    · simp [parse_json_payload, h] at he
    · cases h1 : jsonLoads s with
      | some v => simp [parse_json_payload, h, h1] at he
      | none =>
        cases h2 : jsonLoads (fixEscapes s) with
        | some v => simp [parse_json_payload, h, h1, h2] at he
        | none =>
          simp [parse_json_payload, h, h1, h2] at he
          exact he.symm

/-- C9: the payload string `"null"` is valid JSON decoding to `None`,
so the parser's result is indistinguishable from an absent payload: no
explicit method yields `GET`, and the single request sent carries no
body. -/
theorem null_payload_means_absent :
    jsonLoads "null" = some PyVal.none
    ∧ parse_json_payload "null" = .ok PyVal.none
    ∧ determine_method PyVal.none Option.none = "GET"
    ∧ ∀ (transport : SentReq → Except String HttpResp) (isFile : String → Bool)
        (home url : String) (headers : List (String × String)),
        (make_request transport isFile home url
            (determine_method PyVal.none Option.none) headers PyVal.none false).sent
          = [⟨url, "GET", headers, SentBody.none⟩] := by
  refine ⟨rfl, rfl, rfl, ?_⟩
  intro t i h url hs
  have hdm : determine_method PyVal.none Option.none = "GET" := rfl
  rw [hdm]
  unfold make_request
  rw [if_neg (by decide)]
  cases ht : t ⟨url, "GET", hs, SentBody.none⟩ with
  | ok r => simp [ht]
  | error e => simp [ht]

/-- C6 (amended): in raw mode with verbose mode off, the rendered
output is exactly the response body text with nothing else, for every
response and status code, and the exit code is still derived from the
status. -/
theorem raw_mode_emits_exact_body (html_fmt : String → String)
    (json_dumps : PyVal → String) (resp : HttpResp) :
    format_response html_fmt json_dumps resp true false = resp.body
    ∧ (render_and_exit html_fmt json_dumps resp true false).2 =
        (if 200 ≤ resp.status ∧ resp.status < 300 then 0 else 1) :=
  ⟨rfl, rfl⟩

/-- C6 (counterexample): in raw mode with verbose mode also on, the
rendered output is the response debug dump followed by the body, so it
is not exactly the response body text. -/
theorem raw_with_verbose_not_exact_body :
    format_response id (fun _ => "") respVerbose true true ≠ respVerbose.body := by
  decide

/-- C7 (amended): for every non-raw rendering of a response whose
content-type contains `application/json` but whose body is non-empty
after trimming and not valid JSON, the renderer emits the warning
followed by the (trimmed) body text, does not abort, and the exit code
is still governed solely by the HTTP status. -/
theorem declared_json_invalid_body_warns (html_fmt : String → String)
    (json_dumps : PyVal → String) (resp : HttpResp) (verbose : Bool)
    (hct : containsSubstr (pyLower ((headersGet resp.headers "content-type").getD ""))
        "application/json" = true)
    (hne : pyStrip resp.body ≠ "")
    (hbad : jsonLoads resp.body = Option.none) :
    format_response html_fmt json_dumps resp false verbose =
      (if verbose then print_verbose_response resp else "") ++
      statusBanner resp.status ++ "\nResponse:\n" ++
      print_color colorYellow "Response claims to be JSON but is not valid JSON:" ++
      pyStrip resp.body ++ "\n"
    ∧ (render_and_exit html_fmt json_dumps resp false verbose).2 =
        (if 200 ≤ resp.status ∧ resp.status < 300 then 0 else 1) := by
  constructor
  · simp [format_response, hne, hct, hbad, String.append_assoc]
  · rfl

/-- C7 (witness): the amended theorem at a concrete 404 response whose
body `oops` is not JSON. -/
theorem declared_json_invalid_body_warns_witness :
    format_response id (fun _ => "") respBadJson false false =
      (if false then print_verbose_response respBadJson else "") ++
      statusBanner respBadJson.status ++ "\nResponse:\n" ++
      print_color colorYellow "Response claims to be JSON but is not valid JSON:" ++
      pyStrip respBadJson.body ++ "\n"
    ∧ (render_and_exit id (fun _ => "") respBadJson false false).2 =
        (if 200 ≤ respBadJson.status ∧ respBadJson.status < 300 then 0 else 1) :=
  declared_json_invalid_body_warns id (fun _ => "") respBadJson false (by decide)
    (by decide) rfl

/-- C7 (counterexample): a 200 response declaring JSON with an empty
body — the body is not valid JSON, yet the renderer prints the no-body
notice and no warning at all, so the claim as stated fails. -/
theorem declared_json_empty_body_no_warning :
    jsonLoads respEmptyJson.body = Option.none
    ∧ containsSubstr (pyLower ((headersGet respEmptyJson.headers "content-type").getD ""))
        "application/json" = true
    ∧ format_response id (fun _ => "") respEmptyJson false false =
        statusBanner 200 ++ print_color colorYellow "Success but no response body received"
    ∧ containsSubstr (format_response id (fun _ => "") respEmptyJson false false)
        "Response claims to be JSON but is not valid JSON" = false := by
  exact ⟨rfl, by decide, by decide, by decide⟩

/-- Structural characterization of a successful classification: the
`files` mapping is the file-condition filter of the payload with
resolved paths, and `data` is the complementary filter. -/
theorem prepare_ok_filter (isFile : String → Bool) (home : String) :
    ∀ (items : List (String × PyVal)) (files : List (String × String))
      (data : List (String × PyVal)),
      prepare_file_upload isFile home items = .ok (files, data) →
      files = (items.filter (fun kv => fileCond kv.1 kv.2)).map
          (fun kv => (kv.1, expanduser home kv.2.asStr))
      ∧ data = items.filter (fun kv => !fileCond kv.1 kv.2) := by
  intro items
  induction items with
  | nil =>
    intro files data h
    simp only [prepare_file_upload, Except.ok.injEq, Prod.mk.injEq] at h
    simp [← h.1, ← h.2]
  | cons kv rest ih =>
    obtain ⟨k, v⟩ := kv
    intro files data h
    rw [prepare_file_upload] at h
    by_cases hc : fileCond k v = true
    · rw [if_pos hc] at h
      by_cases hf : isFile (expanduser home v.asStr) = true
      · rw [if_pos hf] at h
        cases hrec : prepare_file_upload isFile home rest with
        | ok pr =>
          obtain ⟨fs, ds⟩ := pr
          rw [hrec] at h
          simp only [Except.ok.injEq, Prod.mk.injEq] at h
          obtain ⟨h1, h2⟩ := h
          obtain ⟨ih1, ih2⟩ := ih fs ds hrec
          subst h1 h2
          constructor
          · rw [List.filter_cons_of_pos (by exact hc), List.map_cons, ih1]
          · rw [List.filter_cons_of_neg (by simp [hc]), ih2]
        | error e =>
          rw [hrec] at h
          exact Except.noConfusion h
      · rw [if_neg hf] at h
        exact Except.noConfusion h
    · rw [if_neg hc] at h
      cases hrec : prepare_file_upload isFile home rest with
      | ok pr =>
        obtain ⟨fs, ds⟩ := pr
        rw [hrec] at h
        simp only [Except.ok.injEq, Prod.mk.injEq] at h
        obtain ⟨h1, h2⟩ := h
        obtain ⟨ih1, ih2⟩ := ih fs ds hrec
        subst h1 h2
        constructor
        · rw [List.filter_cons_of_neg (by simp [hc]), ih1]
        · rw [List.filter_cons_of_pos (by simp [hc]), ih2]
      | error e =>
        rw [hrec] at h
        exact Except.noConfusion h

/-- C4: on every payload whose classification succeeds, `files` and
`data` have disjoint key sets whose union is the payload's key set, and
a pair lands in `files` exactly when the file condition (string value
and: sentinel key, or `~/`- or `/`-prefix, or a dotted last path
segment) holds of it, else in `data`. -/
theorem classification_partitions_payload (isFile : String → Bool) (home : String)
    (items : List (String × PyVal)) (files : List (String × String))
    (data : List (String × PyVal))
    (hok : prepare_file_upload isFile home items = .ok (files, data))
    (hnd : (items.map Prod.fst).Nodup) :
    (∀ k, (k ∈ files.map Prod.fst ∨ k ∈ data.map Prod.fst) ↔ k ∈ items.map Prod.fst)
    ∧ (∀ k, ¬(k ∈ files.map Prod.fst ∧ k ∈ data.map Prod.fst))
    ∧ (∀ k v, (k, v) ∈ items →
        (fileCond k v = true ↔ k ∈ files.map Prod.fst)
        ∧ (fileCond k v = false ↔ k ∈ data.map Prod.fst)) := by
  obtain ⟨hf, hd⟩ := prepare_ok_filter isFile home items files data hok
  subst hf hd
  have hinj := List.inj_on_of_nodup_map hnd
  refine ⟨?_, ?_, ?_⟩
  · intro k
    simp only [List.map_map, List.mem_map, List.mem_filter, Function.comp,
      Bool.not_eq_true']
    constructor
    · rintro (⟨kv, ⟨hm, _⟩, rfl⟩ | ⟨kv, ⟨hm, _⟩, rfl⟩) <;> exact ⟨kv, hm, rfl⟩
    · rintro ⟨kv, hm, rfl⟩
      by_cases hc : fileCond kv.1 kv.2 = true
      · exact Or.inl ⟨kv, ⟨hm, hc⟩, rfl⟩
      · exact Or.inr ⟨kv, ⟨hm, by simpa using hc⟩, rfl⟩
  · intro k hk
    obtain ⟨hkf, hkd⟩ := hk
    simp only [List.map_map, List.mem_map, List.mem_filter, Function.comp,
      Bool.not_eq_true'] at hkf hkd
    obtain ⟨kv1, ⟨hm1, hc1⟩, hk1⟩ := hkf
    obtain ⟨kv2, ⟨hm2, hc2⟩, hk2⟩ := hkd
    have heq : kv1 = kv2 := hinj hm1 hm2 (by rw [hk1, hk2])
    rw [heq, hc2] at hc1
    exact Bool.noConfusion hc1
  · intro k v hm
    constructor
    · constructor
      · intro hc
        simp only [List.map_map, List.mem_map, List.mem_filter, Function.comp]
        exact ⟨(k, v), ⟨hm, hc⟩, rfl⟩
      · intro hk
        simp only [List.map_map, List.mem_map, List.mem_filter, Function.comp] at hk
        obtain ⟨kv, ⟨hm2, hc2⟩, hk2⟩ := hk
        have heq : kv = (k, v) := hinj hm2 hm hk2
        rwa [heq] at hc2
    · constructor
      · intro hc
        simp only [List.map_map, List.mem_map, List.mem_filter, Bool.not_eq_true']
        exact ⟨(k, v), ⟨hm, hc⟩, rfl⟩
      · intro hk
        simp only [List.map_map, List.mem_map, List.mem_filter, Bool.not_eq_true'] at hk
        obtain ⟨kv, ⟨hm2, hc2⟩, hk2⟩ := hk
        have heq : kv = (k, v) := hinj hm2 hm hk2
        rwa [heq] at hc2

/-- C4 (witness): the partition theorem at a concrete two-field
payload, one file reference and one plain field. -/
theorem classification_partition_witness :
    (∀ k, (k ∈ [("archive", "/home/user/backup.zip")].map Prod.fst ∨
          k ∈ [("name", PyVal.str "Test Recipe")].map Prod.fst) ↔
        k ∈ sampleItems.map Prod.fst)
    ∧ (∀ k, ¬(k ∈ [("archive", "/home/user/backup.zip")].map Prod.fst ∧
          k ∈ [("name", PyVal.str "Test Recipe")].map Prod.fst))
    ∧ (∀ k v, (k, v) ∈ sampleItems →
        (fileCond k v = true ↔ k ∈ [("archive", "/home/user/backup.zip")].map Prod.fst)
        ∧ (fileCond k v = false ↔ k ∈ [("name", PyVal.str "Test Recipe")].map Prod.fst)) :=
  classification_partitions_payload (fun _ => true) "/home/user" sampleItems
    [("archive", "/home/user/backup.zip")] [("name", PyVal.str "Test Recipe")]
    rfl (by decide)

/-- If some file-reference candidate resolves to a missing file, the
classifier takes the fatal path, reporting the resolved path of a
failing candidate. -/
theorem prepare_fails_of_missing (isFile : String → Bool) (home : String) :
    ∀ items : List (String × PyVal),
      (∃ kv ∈ items, fileCond kv.1 kv.2 = true ∧
        isFile (expanduser home kv.2.asStr) = false) →
      ∃ k v opened, (k, v) ∈ items ∧ fileCond k v = true ∧
        isFile (expanduser home v.asStr) = false ∧
        prepare_file_upload isFile home items
          = .error (expanduser home v.asStr, opened) := by
  intro items
  induction items with
  | nil =>
    rintro ⟨kv, h, _⟩
    exact absurd h (List.not_mem_nil kv)
  | cons kv rest ih =>
    obtain ⟨k, v⟩ := kv
    rintro ⟨kv0, hm0, hc0, hf0⟩
    by_cases hc : fileCond k v = true
    · by_cases hf : isFile (expanduser home v.asStr) = true
      · have hrest : ∃ kv ∈ rest, fileCond kv.1 kv.2 = true ∧
            isFile (expanduser home kv.2.asStr) = false := by
          rcases List.mem_cons.mp hm0 with h | h
          · rw [h] at hf0
            rw [hf0] at hf
            exact Bool.noConfusion hf
          · exact ⟨kv0, h, hc0, hf0⟩
        obtain ⟨k2, v2, opened, hmem, hc2, hf2, herr⟩ := ih hrest
        refine ⟨k2, v2, expanduser home v.asStr :: opened,
          List.mem_cons_of_mem _ hmem, hc2, hf2, ?_⟩
        rw [prepare_file_upload, if_pos hc, if_pos hf, herr]
      · refine ⟨k, v, [], List.mem_cons_self _ _, hc, by simpa using hf, ?_⟩
        rw [prepare_file_upload, if_pos hc, if_neg hf]
    · have hrest : ∃ kv ∈ rest, fileCond kv.1 kv.2 = true ∧
          isFile (expanduser home kv.2.asStr) = false := by
        rcases List.mem_cons.mp hm0 with h | h
        · rw [h] at hc0
          exact absurd hc0 hc
        · exact ⟨kv0, h, hc0, hf0⟩
      obtain ⟨k2, v2, opened, hmem, hc2, hf2, herr⟩ := ih hrest
      refine ⟨k2, v2, opened, List.mem_cons_of_mem _ hmem, hc2, hf2, ?_⟩
      rw [prepare_file_upload, if_neg hc, herr]

/-- C5: when a multipart upload (POST/PUT/PATCH, payload present) has a
file-reference candidate whose resolved path is not an existing file,
no HTTP request is sent, the outcome is the fatal `FileNotFound` report
carrying the resolved path, no partial classification is surfaced, and
the process exit code is 1. -/
theorem missing_file_fails_before_request
    (transport : SentReq → Except String HttpResp) (isFile : String → Bool)
    (home url method : String) (headers : List (String × String))
    (items : List (String × PyVal))
    (hm : ["POST", "PUT", "PATCH"].contains method = true)
    (hbad : ∃ kv ∈ items, fileCond kv.1 kv.2 = true ∧
        isFile (expanduser home kv.2.asStr) = false) :
    (make_request transport isFile home url method headers (.dict items) true).sent = []
    ∧ (∃ k v, (k, v) ∈ items ∧ fileCond k v = true ∧
        isFile (expanduser home v.asStr) = false ∧
        (make_request transport isFile home url method headers (.dict items) true).outcome
          = .error (.fileNotFound (expanduser home v.asStr)))
    ∧ request_exit (make_request transport isFile home url method headers
        (.dict items) true).outcome = 1 := by
  obtain ⟨k, v, opened, hmem, hc, hf, herr⟩ := prepare_fails_of_missing isFile home items hbad
  have hmr : make_request transport isFile home url method headers (.dict items) true
      = ⟨[], opened, [], .error (.fileNotFound (expanduser home v.asStr))⟩ := by
    unfold make_request
    rw [if_pos ⟨hm, by simp [PyVal.isNone]⟩, if_pos rfl]
    simp only [herr]
  refine ⟨by rw [hmr], ⟨k, v, hmem, hc, hf, by rw [hmr]⟩, by rw [hmr]; rfl⟩

/-- C5 (witness): the fail-fast theorem at a concrete payload whose
`file` field names a missing path. -/
theorem missing_file_fails_before_request_witness :
    (make_request dummyTransport (fun _ => false) "/home/u" "http://h/api/e" "POST" []
        (.dict missingItems) true).sent = []
    ∧ (∃ k v, (k, v) ∈ missingItems ∧ fileCond k v = true ∧
        (fun _ => false : String → Bool) (expanduser "/home/u" v.asStr) = false ∧
        (make_request dummyTransport (fun _ => false) "/home/u" "http://h/api/e" "POST" []
            (.dict missingItems) true).outcome
          = .error (.fileNotFound (expanduser "/home/u" v.asStr)))
    ∧ request_exit (make_request dummyTransport (fun _ => false) "/home/u" "http://h/api/e"
        "POST" [] (.dict missingItems) true).outcome = 1 :=
  missing_file_fails_before_request dummyTransport (fun _ => false) "/home/u"
    "http://h/api/e" "POST" [] missingItems rfl
    ⟨("file", PyVal.str "/nope.txt"),
      List.mem_cons_of_mem _ (List.mem_cons_self _ _), rfl, rfl⟩

/-- C8: in a multipart invocation with method POST/PUT/PATCH and a
present payload, on every path on which the HTTP request was actually
issued — whether the transport returned a response or raised — the set
of closed file handles equals the set opened (the `try/finally`
discipline). -/
theorem multipart_files_closed
    (transport : SentReq → Except String HttpResp) (isFile : String → Bool)
    (home url method : String) (headers : List (String × String)) (payload : PyVal)
    (hm : ["POST", "PUT", "PATCH"].contains method = true)
    (hp : payload.isNone = false)
    (hsent : (make_request transport isFile home url method headers payload true).sent.isEmpty
      = false) :
    (make_request transport isFile home url method headers payload true).closed =
      (make_request transport isFile home url method headers payload true).opened := by
  unfold make_request at hsent ⊢
  rw [if_pos ⟨hm, by simp [hp]⟩, if_pos rfl] at hsent ⊢
  cases payload with
  | dict items =>
    cases hrec : prepare_file_upload isFile home items with
    | error e =>
      obtain ⟨p, op⟩ := e
      simp only [hrec] at hsent
      simp at hsent
    | ok pr =>
      obtain ⟨files, data⟩ := pr
      simp only [hrec]
      cases ht : transport ⟨url, method,
          headers.filter (fun kv => pyLower kv.1 ≠ "content-type"),
          SentBody.multipart files data⟩ with
      | ok r => simp [ht]
      | error e => simp [ht]
  | none => rfl
  | bool b => rfl
  | int n => rfl
  | float q => rfl
  | str s => rfl
  | list xs => rfl

/-- C8 (witness): the closure theorem at a concrete multipart upload
that goes through the transport. -/
theorem multipart_files_closed_witness :
    (make_request dummyTransport (fun _ => true) "/home/u" "http://h/api/e" "POST" []
        (.dict sampleItems) true).closed =
      (make_request dummyTransport (fun _ => true) "/home/u" "http://h/api/e" "POST" []
        (.dict sampleItems) true).opened :=
  multipart_files_closed dummyTransport (fun _ => true) "/home/u" "http://h/api/e"
    "POST" [] (.dict sampleItems) rfl rfl (by decide)

/-- A string whose `strip()` is empty consists of whitespace only. -/
theorem pyStrip_empty_all_space {s : String} (h : pyStrip s = "") :
    ∀ c ∈ s.data, c ∈ pySpaceChars := by
  have h1 : ((s.data.dropWhile fun c => pySpaceChars.contains c).reverse.dropWhile
      fun c => pySpaceChars.contains c).reverse = [] := congrArg String.data h
  rw [List.reverse_eq_nil_iff, List.dropWhile_eq_nil_iff] at h1
  intro c hc
  rw [← List.takeWhile_append_dropWhile (p := fun c => pySpaceChars.contains c)
    (l := s.data)] at hc
  rcases List.mem_append.mp hc with h2 | h2
  · have h3 := List.mem_takeWhile_imp h2
    simpa using h3
  · have h3 := h1 c (List.mem_reverse.mpr h2)
    simpa using h3

/-- The parser `parseValue` fails on an all-whitespace tail: after skipping JSON
whitespace, only the (non-JSON) whitespace characters `\x0b`/`\x0c`
can remain, and no value starts with them. -/
theorem parseValue_space : ∀ l : List Char, (∀ c ∈ l, c ∈ pySpaceChars) →
    ∀ fuel, parseValue fuel (skipWs l) = Option.none := by
  intro l
  induction l with
  | nil =>
    intro _ fuel
    cases fuel with
    | zero => rfl
    | succ n => rfl
  | cons c t ih =>
    intro hall fuel
    by_cases hj : jsonWsChars.contains c = true
    · rw [show skipWs (c :: t) = skipWs t from by
        unfold skipWs
        rw [List.dropWhile_cons, if_pos hj]]
      exact ih (fun x hx => hall x (List.mem_cons_of_mem _ hx)) fuel
    · have hcs : c ∈ pySpaceChars := hall c (List.mem_cons_self _ _)
      have hsk : skipWs (c :: t) = c :: t := by
        simp only [skipWs, List.dropWhile_cons]
        rw [if_neg (by simpa using hj)]
      have hcv : c = Char.ofNat 11 ∨ c = Char.ofNat 12 := by
        simp only [pySpaceChars, List.mem_cons, List.not_mem_nil, or_false] at hcs
        rcases hcs with rfl | rfl | rfl | rfl | rfl | rfl
        · exact absurd (by decide) hj
        · exact absurd (by decide) hj
        · exact absurd (by decide) hj
        · exact absurd (by decide) hj
        · exact Or.inl rfl
        · exact Or.inr rfl
      rw [hsk]
      rcases hcv with rfl | rfl <;>
        · cases fuel with
          | zero => rfl
          | succ n => simp [parseValue, lbChar, rbChar, btChar, sqChar, bsChar]

/-- Decoding fails on empty or whitespace-only input. -/
theorem jsonLoads_none_of_space {s : String} (h : pyStrip s = "") :
    jsonLoads s = Option.none := by
  unfold jsonLoads
  rw [parseValue_space s.data (pyStrip_empty_all_space h) (4 * (s.data.length + 1))]

/-- A successfully decoded payload string is neither empty nor
whitespace-only. -/
theorem jsonLoads_some_not_space {s : String} {v : PyVal} (h : jsonLoads s = some v) :
    ¬(s = "" ∨ pyStrip s = "") := by
  intro hcase
  have hstrip : pyStrip s = "" := by
    rcases hcase with rfl | h2
    · rfl
    · exact h2
  rw [jsonLoads_none_of_space hstrip] at h
  exact Option.noConfusion h

/-- C10 (counterexample): the valid JSON string `null` has a
non-mapping top-level value; the parser does return that value
(`None`), but the program does not send it as a request body — the
inferred method is `GET` and the single request carries no body. -/
theorem null_json_payload_not_sent :
    jsonLoads "null" = some PyVal.none
    ∧ PyVal.none.isDict = false
    ∧ parse_json_payload "null" = .ok PyVal.none
    ∧ determine_method PyVal.none Option.none = "GET"
    ∧ (make_request dummyTransport (fun _ => true) "/home/u" "http://h/api/e"
        (determine_method PyVal.none Option.none) [] PyVal.none false).sent
      = [⟨"http://h/api/e", "GET", [], SentBody.none⟩] :=
  ⟨rfl, rfl, rfl, rfl, rfl⟩

/-- C10 (amended): for every payload string that is valid JSON with a
non-mapping, non-null top-level value, the parser returns that value
without `MalformedPayload`, the inferred method (absent an explicit
one) is `POST`, and the value is sent as the JSON request body. -/
theorem nonmapping_payload_accepted_and_sent (s : String) (v : PyVal)
    (hv : jsonLoads s = some v) (_hnd : v.isDict = false) (hn : v.isNone = false) :
    parse_json_payload s = .ok v
    ∧ determine_method v Option.none = "POST"
    ∧ ∀ (transport : SentReq → Except String HttpResp) (isFile : String → Bool)
        (home url : String) (headers : List (String × String)),
        (make_request transport isFile home url (determine_method v Option.none)
            headers v false).sent
          = [⟨url, "POST", headers, .json v⟩] := by
  have hns := jsonLoads_some_not_space hv
  have hdm : determine_method v Option.none = "POST" := by
    unfold determine_method
    rw [if_neg (by simp), if_pos (by simp [hn])]
  refine ⟨?_, hdm, ?_⟩
  · unfold parse_json_payload
    rw [if_neg hns]
    simp only [hv]
  · intro t i h url hs
    rw [hdm]
    unfold make_request
    rw [if_pos ⟨by decide, by simp [hn]⟩, if_neg (by simp)]
    cases ht : t ⟨url, "POST", hs, SentBody.json v⟩ with
    | ok r => simp [ht]
    | error e => simp [ht]

/-- C10 (witness): the amended theorem at the concrete array payload
`[1, 2]`. -/
theorem nonmapping_payload_witness :
    parse_json_payload "[1, 2]" = .ok (PyVal.list [PyVal.int 1, PyVal.int 2])
    ∧ determine_method (PyVal.list [PyVal.int 1, PyVal.int 2]) Option.none = "POST"
    ∧ (make_request dummyTransport (fun _ => true) "/home/u" "http://h/api/e"
          (determine_method (PyVal.list [PyVal.int 1, PyVal.int 2]) Option.none)
          [] (PyVal.list [PyVal.int 1, PyVal.int 2]) false).sent
        = [⟨"http://h/api/e", "POST", [],
            SentBody.json (PyVal.list [PyVal.int 1, PyVal.int 2])⟩] :=
  ⟨(nonmapping_payload_accepted_and_sent "[1, 2]" _ rfl rfl rfl).1,
   (nonmapping_payload_accepted_and_sent "[1, 2]" _ rfl rfl rfl).2.1,
   (nonmapping_payload_accepted_and_sent "[1, 2]" _ rfl rfl rfl).2.2 dummyTransport
     (fun _ => true) "/home/u" "http://h/api/e" []⟩

/-- C2 (witness): the trichotomy at a whitespace-only payload and at
an unrepairable payload. -/
theorem payload_parse_trichotomy_witness :
    parse_json_payload "  " = .ok PyVal.none
    ∧ parse_json_payload "not json" = .error ⟨"not json", fixEscapes "not json"⟩ :=
  ⟨(payload_parse_trichotomy "  ").1 (Or.inr rfl),
   (payload_parse_trichotomy "not json").2.1.mpr ⟨by decide, rfl, rfl⟩⟩

/-- Introducing escapes from an empty character set changes nothing. -/
theorem esc_empty {o s : List Char} (h : Esc [] o s) : s = o := by
  induction h with
  | nil => rfl
  | keep c h ih => rw [ih]
  | ins c hc h ih => exact absurd hc (List.not_mem_nil c)

/-- Unfolding equation of `replEsc` at a two-character head. -/
theorem replEsc_cons₂ (c x y : Char) (t : List Char) :
    replEsc c (x :: y :: t) =
      if x = bsChar ∧ y = c then c :: replEsc c t else x :: replEsc c (y :: t) := by
  rw [replEsc]

/-- The replacement on the empty list. -/
theorem replEsc_nil (c : Char) : replEsc c [] = [] := by
  rw [replEsc]
  simp

/-- The replacement on a singleton. -/
theorem replEsc_one (c a : Char) : replEsc c [a] = [a] := by
  rw [replEsc]
  simp

/-- A head character other than a backslash passes through `replEsc`. -/
theorem replEsc_cons_ne (c a : Char) (t : List Char) (ha : a ≠ bsChar) :
    replEsc c (a :: t) = a :: replEsc c t := by
  cases t with
  | nil => rw [replEsc_one, replEsc_nil]
  | cons y r => rw [replEsc_cons₂, if_neg (fun hx => ha hx.1)]

/-- Unfolding equation of `cleanFor` at a two-character head. -/
theorem cleanFor_cons₂ (cs : List Char) (b c : Char) (t : List Char) :
    cleanFor cs (b :: c :: t) =
      ((!(b == bsChar && cs.contains c)) && cleanFor cs (c :: t)) := by
  rw [cleanFor]

/-- Cleanliness is preserved by dropping the head character. -/
theorem cleanFor_tail {cs : List Char} {a : Char} {t : List Char}
    (h : cleanFor cs (a :: t) = true) : cleanFor cs t = true := by
  cases t with
  | nil => rfl
  | cons b r =>
    rw [cleanFor_cons₂, Bool.and_eq_true] at h
    exact h.2

/-- In a clean string no `cs`-character follows a backslash. -/
theorem cleanFor_head {cs : List Char} {c : Char} {t : List Char}
    (h : cleanFor cs (bsChar :: c :: t) = true) : cs.contains c = false := by
  rw [cleanFor_cons₂, Bool.and_eq_true] at h
  simpa using h.1

/-- Cleanliness antitone in the character set. -/
theorem cleanFor_mono {cs cs' : List Char}
    (hsub : ∀ x, cs'.contains x = true → cs.contains x = true) :
    ∀ l, cleanFor cs l = true → cleanFor cs' l = true := by
  intro l
  induction l with
  | nil => intro _; rfl
  | cons b t iht =>
    cases t with
    | nil => intro _; rfl
    | cons c r =>
      intro h
      rw [cleanFor_cons₂, Bool.and_eq_true] at h
      obtain ⟨h1, h2⟩ := h
      rw [cleanFor_cons₂, Bool.and_eq_true]
      refine ⟨?_, iht h2⟩
      cases hb : (b == bsChar) with
      | false => simp [hb]
      | true =>
        cases hcc : cs'.contains c with
        | false => simp [hb, hcc]
        | true =>
          rw [hb, hsub c hcc] at h1
          simp at h1

/-- Key step: applying the single replacement for `c` to a string with
escapes introduced from `c :: S` (over a clean original) removes
exactly the introduced `c`-escapes, leaving the `S`-escapes. -/
theorem esc_step (c : Char) (S : List Char) (hcb : c ≠ bsChar) (hSb : bsChar ∉ S) :
    ∀ n o s, o.length ≤ n → Esc (c :: S) o s → cleanFor (c :: S) o = true →
      Esc S o (replEsc c s) := by
  intro n
  induction n with
  | zero =>
    intro o s hlen hesc _
    cases hesc with
    | nil => exact Esc.nil
    | keep a h' => simp at hlen
    | ins a ha h' => simp at hlen
  | succ n ih =>
    intro o s hlen hesc hcl
    cases hesc with
    | nil => exact Esc.nil
    | keep a h' =>
      by_cases hab : a = bsChar
      · subst hab
        cases h' with
        | nil =>
          rw [replEsc_one]
          exact Esc.keep bsChar Esc.nil
        | keep b h'' =>
          have hbc : b ≠ c := by
            intro hbc
            subst hbc
            have h0 := cleanFor_head hcl
            simp at h0
          rw [replEsc_cons₂, if_neg (fun hx => hbc hx.2)]
          exact Esc.keep bsChar (ih _ _ (by simp at hlen ⊢; omega) (Esc.keep b h'')
            (cleanFor_tail hcl))
        | ins b hb h'' =>
          have hbc : b ≠ c := by
            intro hbc
            subst hbc
            have h0 := cleanFor_head hcl
            simp at h0
          have hbB : b ≠ bsChar := by
            rcases List.mem_cons.mp hb with h | h
            · exact absurd h hbc
            · intro he; rw [he] at h; exact hSb h
          rw [replEsc_cons₂, if_neg (fun hx => hcb hx.2.symm)]
          rw [replEsc_cons₂, if_neg (fun hx => hbc hx.2)]
          rw [replEsc_cons_ne c b _ hbB]
          refine Esc.keep bsChar (Esc.ins b ?_ (ih _ _ ?_ h'' ?_))
          · rcases List.mem_cons.mp hb with h | h
            · exact absurd h hbc
            · exact h
          · simp at hlen ⊢; omega
          · exact cleanFor_tail (cleanFor_tail hcl)
      · rw [replEsc_cons_ne c a _ hab]
        exact Esc.keep a (ih _ _ (by simp at hlen ⊢; omega) h' (cleanFor_tail hcl))
    | ins a ha h' =>
      by_cases hac : a = c
      · subst hac
        rw [replEsc_cons₂, if_pos ⟨rfl, rfl⟩]
        exact Esc.keep a (ih _ _ (by simp at hlen ⊢; omega) h' (cleanFor_tail hcl))
      · have haS : a ∈ S := by
          rcases List.mem_cons.mp ha with h | h
          · exact absurd h hac
          · exact h
        have haB : a ≠ bsChar := fun he => hSb (he ▸ haS)
        rw [replEsc_cons₂, if_neg (fun hx => hac hx.2)]
        rw [replEsc_cons_ne c a _ haB]
        exact Esc.ins a haS (ih _ _ (by simp at hlen ⊢; omega) h' (cleanFor_tail hcl))

/-- Folding the sequential replacements over the escape set undoes
every introduced escape, recovering the original exactly. -/
theorem esc_fold : ∀ cs : List Char, (∀ x ∈ cs, x ∈ escChars) →
    ∀ o s, Esc cs o s → cleanFor cs o = true →
      cs.foldl (fun acc c => replEsc c acc) s = o := by
  intro cs
  induction cs with
  | nil =>
    intro _ o s hesc _
    simpa using esc_empty hesc
  | cons c S ih =>
    intro hsub o s hesc hcl
    rw [List.foldl_cons]
    have hc : c ∈ escChars := hsub c (List.mem_cons_self _ _)
    have hcb : c ≠ bsChar := by
      intro he; rw [he] at hc; revert hc; decide
    have hSb : bsChar ∉ S := by
      intro hbs
      have hmem := hsub bsChar (List.mem_cons_of_mem _ hbs)
      revert hmem; decide
    refine ih (fun x hx => hsub x (List.mem_cons_of_mem _ hx)) o (replEsc c s)
      (esc_step c S hcb hSb o.length o s le_rfl hesc hcl) ?_
    refine cleanFor_mono (fun x hx => ?_) o hcl
    simp only [List.contains_cons]
    rw [hx]
    simp

/-- C3 (amended): for every valid JSON payload whose text contains none
of the §4.1 escape sequences itself, introducing any of those escape
sequences and then running the repair pass recovers the original text
exactly, so the JSON decode succeeds and yields the same mapping as
decoding the original. -/
theorem repaired_escapes_decode_as_original (o s : List Char) (v : PyVal)
    (hesc : Esc escChars o s) (hcl : cleanFor escChars o = true)
    (hv : jsonLoads (String.mk o) = some v) :
    fixEscapes (String.mk s) = String.mk o
    ∧ jsonLoads (fixEscapes (String.mk s)) = some v := by
  have hfold : escChars.foldl (fun acc c => replEsc c acc) s = o :=
    esc_fold escChars (fun _ h => h) o s hesc hcl
  have hfix : fixEscapes (String.mk s) = String.mk o := by
    unfold fixEscapes fixList
    rw [show (String.mk s).data = s from rfl, hfold]
  exact ⟨hfix, by rw [hfix]; exact hv⟩

/-- C3 (counterexample): the valid JSON text `{"a":"b\"c"}` (which
legitimately contains the backslash-quote sequence inside a string
value), with one §4.1 escape introduced before the opening brace, is
corrupted by the repair pass — after repair the JSON decode fails, so
repair-then-decode does not yield the original mapping. -/
theorem escape_repair_corrupts :
    jsonLoads (String.mk escOrig)
      = some (PyVal.dict [("a", PyVal.str (String.mk ['b', '"', 'c']))])
    ∧ Esc escChars escOrig escBroken
    ∧ jsonLoads (fixEscapes (String.mk escBroken)) = Option.none := by
  refine ⟨rfl, ?_, rfl⟩
  exact Esc.ins lbChar (by decide)
    (Esc.keep '"' (Esc.keep 'a' (Esc.keep '"' (Esc.keep ':' (Esc.keep '"' (Esc.keep 'b'
      (Esc.keep bsChar (Esc.keep '"' (Esc.keep 'c' (Esc.keep '"'
        (Esc.keep rbChar Esc.nil)))))))))))

/-- C3 (witness): the amended round-trip at the concrete payload
`{"n":"a b"}` with the space escaped. -/
theorem repaired_escapes_decode_witness :
    fixEscapes (String.mk escwEsc) = String.mk escwOrig
    ∧ jsonLoads (fixEscapes (String.mk escwEsc))
      = some (PyVal.dict [("n", PyVal.str "a b")]) :=
  repaired_escapes_decode_as_original escwOrig escwEsc _
    (Esc.keep lbChar (Esc.keep '"' (Esc.keep 'n' (Esc.keep '"' (Esc.keep ':'
      (Esc.keep '"' (Esc.keep 'a' (Esc.ins ' ' (by decide)
        (Esc.keep 'b' (Esc.keep '"' (Esc.keep rbChar Esc.nil)))))))))))
    rfl rfl
